import Mathlib

/-!
Verification development for `kasa_mqtt_bridge.py`: a shallow embedding of
the bridge's device registry, discovery registration, poll loop, command
router and reconnect backoff, together with theorems about the properties
the specification states for them.

Conventions of the embedding:
* Python dicts become insertion-ordered association lists
  (`List (String × V)`) with the overwrite-or-append update `dictSet`,
  mirroring CPython dict semantics; `d[k]` lookups become `List.lookup`.
* Python strings become `String`; `str.lower` is modelled by
  `Char.toLower` on each character (ASCII case folding; the final
  character filter of `sanitize_alias` makes the difference irrelevant
  for the proved properties).
* The asyncio tasks' network effects (device updates, publishes, sleeps)
  become explicit event/action traces; the cooperative single-threaded
  schedule means each loop body is a pure function of the shared state.
-/

/-! ## Characters and alias sanitisation (`sanitize_alias`, line 71-76) -/

/-- Whitespace as matched by the regex class in `re.sub(r'\s+', '_', s)`
(ASCII part; the sanitiser's final character filter removes every
non-ASCII character anyway). -/
def isPySpace (c : Char) : Bool :=
  c == ' ' || c == '\t' || c == '\n' || c == '\r' || c == '\x0b' || c == '\x0c'

/-- The character class `[a-z0-9_-]` kept by `re.sub(r'[^a-z0-9_-]', '', s)`. -/
def isAllowedChar (c : Char) : Bool :=
  (decide ('a' ≤ c) && decide (c ≤ 'z')) ||
  (decide ('0' ≤ c) && decide (c ≤ '9')) ||
  c == '_' || c == '-'

/-- Replace every maximal run of whitespace by a single `'_'`, as
`re.sub(r'\s+', '_', s)` does.  The flag records whether we are inside a
whitespace run already replaced. -/
def collapseWs : Bool → List Char → List Char
  | _, [] => []
  | inRun, c :: cs =>
    if isPySpace c then
      if inRun then collapseWs true cs else '_' :: collapseWs true cs
    else c :: collapseWs false cs

/-- `str.lower()` on every character (ASCII folding). -/
def strLower (s : String) : String := ⟨s.data.map Char.toLower⟩

/-- `sanitize_alias` (line 71-76): lower-case, collapse whitespace runs
to `'_'`, strip every character outside `[a-z0-9_-]`. -/
def sanitize_alias (a0 : String) : String :=
  ⟨(collapseWs false (a0.data.map Char.toLower)).filter isAllowedChar⟩

/-- Python slice `s[-n:]` for `n > 0`: the last `n` characters, or all of
`s` when it is shorter than `n`. -/
def lastN (n : Nat) (s : String) : String :=
  ⟨s.data.drop (s.data.length - n)⟩

/-- The topic name built at lines 142/151:
`f"{sanitize_alias(alias)}_{device_id[-8:]}"`. -/
def unique_name (al device_id : String) : String :=
  sanitize_alias al ++ "_" ++ lastN 8 device_id

/-! ## Feature values (`get_feature_value`, line 62-69) -/

/-- A raw Python value sitting in `feature.value`:
`rNone` is Python `None`; `rNamed` is an enum-like object carrying a
`name` attribute while not being a `str`/`int`/`float`/`bool`;
the remaining constructors are the plain JSON-serialisable primitives. -/
inductive RawValue where
  | rNone
  | rStr (s : String)
  | rInt (n : Int)
  | rBool (b : Bool)
  | rNamed (name : String)
deriving DecidableEq

/-- A JSON value as it ends up in a published payload. -/
inductive JsonVal where
  | jStr (s : String)
  | jInt (n : Int)
  | jBool (b : Bool)
deriving DecidableEq

/-- A device feature: `value = none` models a feature object without a
`value` attribute; `settable` models `hasattr(feature, 'set_value')`. -/
structure Feature where
  value : Option RawValue
  settable : Bool
deriving DecidableEq

/-- `get_feature_value` (line 62-69): missing `value` attribute gives
`None`; an enum-like value is replaced by its lower-cased `name`; a raw
`None` falls through the final `return raw_value` and is reported as
absent; primitives pass through unchanged. -/
def get_feature_value (f : Feature) : Option JsonVal :=
  match f.value with
  | none => none
  | some raw =>
    match raw with
    | RawValue.rNamed n => some (JsonVal.jStr (strLower n))
    | RawValue.rNone => none
    | RawValue.rStr s => some (JsonVal.jStr s)
    | RawValue.rInt n => some (JsonVal.jInt n)
    | RawValue.rBool b => some (JsonVal.jBool b)

/-- A live device handle as the bridge reads it: stable identity
(`device_id`), human alias, optional parent hub reference (`parent`,
keyed by CPython object identity `id(hub)`, modelled as a `Nat` key),
and the exposed feature table (`dev.features`). -/
structure Device where
  device_id : String
  alias_ : String
  parent : Option Nat
  features : List (String × Feature)
deriving DecidableEq

/-- The state payload built at lines 189-193:
`{n: get_feature_value(f) for n, f in dev.features.items()
   if get_feature_value(f) is not None}`. -/
def stateJson (d : Device) : List (String × JsonVal) :=
  d.features.filterMap (fun nf =>
    match get_feature_value nf.2 with
    | some v => some (nf.1, v)
    | none => none)

/-- Spec-side rendering of one feature value, following the wording of
the specification: a value carrying a name attribute of a
named/enumerated type is lowered to its lowercase name, a missing value
is dropped, and every other value passes through unchanged.  Used to
compare the specification's description of the payload with `stateJson`
as translated from the code. -/
def spec_lower (r : RawValue) : Option JsonVal :=
  match r with
  | RawValue.rNamed n => some (JsonVal.jStr (strLower n))
  | RawValue.rNone => none
  | RawValue.rStr s => some (JsonVal.jStr s)
  | RawValue.rInt n => some (JsonVal.jInt n)
  | RawValue.rBool b => some (JsonVal.jBool b)

/-- Spec-side state payload: the map over the device's exposed features
restricted to those whose extracted value is present. -/
def specStatePayload (d : Device) : List (String × JsonVal) :=
  d.features.filterMap (fun nf => (nf.2.value.bind spec_lower).map (fun v => (nf.1, v)))

/-! ## The device registry and the discovery registration step
    (lines 139-155, 286-288) -/

/-- CPython dict assignment `m[k] = v`: overwrite the value in place
when the key is present (keeping its position), append otherwise. -/
def dictSet {V : Type} : List (String × V) → String → V → List (String × V)
  | [], k, v => [(k, v)]
  | (k', v') :: rest, k, v =>
    if k' = k then (k, v) :: rest else (k', v') :: dictSet rest k v

/-- The three shared dictionaries of the bridge:
`kasa_devices` (identity to live handle), `device_map` (identity to
topic name) and `reverse_device_map` (topic name to identity). -/
structure RegState where
  kasa_devices : List (String × Device)
  device_map : List (String × String)
  reverse_device_map : List (String × String)
deriving DecidableEq

/-- The empty registry. -/
def emptyRegState : RegState := ⟨[], [], []⟩

/-- One registration performed by `discovery_task` (lines 140-145 for a
hub child, lines 148-154 for a standalone device): guarded only by
`device_id not in kasa_devices`; when the identity is new the three
dictionaries are written in one uninterrupted segment (no `await`
between the writes). -/
def registerStep (st : RegState) (d : Device) : RegState :=
  if (st.kasa_devices.lookup d.device_id).isSome then st
  else
    { kasa_devices := dictSet st.kasa_devices d.device_id d,
      device_map := dictSet st.device_map d.device_id (unique_name d.alias_ d.device_id),
      reverse_device_map := dictSet st.reverse_device_map (unique_name d.alias_ d.device_id) d.device_id }

/-- A whole sequence of registrations starting from the fresh registry
of a session. -/
def applyRegistrations (ds : List Device) : RegState :=
  ds.foldl registerStep emptyRegState

/-- `device_id in kasa_devices`. -/
def isRegistered (st : RegState) (id : String) : Bool :=
  (st.kasa_devices.lookup id).isSome

/-- A candidate device as seen by discovery after authentication:
the handle itself, its reported model string (`getattr(dev, "model", "")`)
and its reported children (`getattr(dev, "children", [])`). -/
structure FoundDevice where
  dev : Device
  model : String
  children : List Device
deriving DecidableEq

/-- Substring containment, as Python's `needle in haystack` on `str`. -/
def containsSub (n : List Char) : List Char → Bool
  | [] => n.isEmpty
  | c :: t => n.isPrefixOf (c :: t) || containsSub n t

/-- `"KH100" in getattr(dev, "model", "")` style containment on `String`. -/
def pyStrContains (needle hay : String) : Bool :=
  containsSub needle.data hay.data

/-- Hub classification at line 136: `is_hub = "KH100" in getattr(dev, "model", "")`. -/
def is_hub (fd : FoundDevice) : Bool := pyStrContains "KH100" fd.model

/-- Lines 136-155: a hub has its children iterated and registered one by
one; any other device is registered itself. -/
def processFoundDevice (st : RegState) (fd : FoundDevice) : RegState :=
  if is_hub fd then fd.children.foldl registerStep st
  else registerStep st fd.dev

/-! ## Sessions (`run_once` line 286-288, `main` line 342-356) -/

/-- Line 288: `kasa_devices, device_map, reverse_device_map = {}, {}, {}` —
every call of `run_once` creates fresh empty dictionaries. -/
def run_once_initial_registry : RegState := emptyRegState

/-- Registry at the end of one session whose discovery performed the
registrations `ds`, starting from the fresh dictionaries of line 288. -/
def sessionEndRegistry (ds : List Device) : RegState :=
  ds.foldl registerStep run_once_initial_registry

/-- Registry at the start of a new session, as a function of the full
history of previous sessions' registrations: `main` (lines 343-349)
passes nothing but the stop event into `run_once`, which at line 288
recreates the three dictionaries empty, so the history is ignored. -/
def registryAtSessionStart (_history : List (List Device)) : RegState :=
  run_once_initial_registry

/-! ## The poll loop (`poll_kasa_devices`, line 165-202) -/

/-- Observable network events of one poll cycle. -/
inductive PollEv where
  | updHub (k : Nat)
  | updDev (id : String)
  | pub (topic : String) (payload : List (String × JsonVal)) (retain : Bool)
deriving DecidableEq

/-- The body of the `for device_id in list(devices.keys())` loop
(lines 173-196) on the snapshot `devs`, carrying the per-cycle set
`hubs_aggiornati` of already refreshed hub object identities `S`.
This is the non-failing trace: every bounded `await` completes (the
`except` branch that logs a per-device failure and continues produces
no events). -/
def pollDevices (base : String) (devMap : List (String × String)) :
    List Nat → List (String × Device) → List PollEv
  | _, [] => []
  | S, (id, d) :: rest =>
    let name := (devMap.lookup id).getD (lastN 8 id)
    let stTopic := base ++ "/" ++ name ++ "/state"
    match d.parent with
    | none =>
      PollEv.updDev id :: PollEv.pub stTopic (stateJson d) true ::
        pollDevices base devMap S rest
    | some k =>
      if k ∈ S then
        PollEv.updDev id :: PollEv.pub stTopic (stateJson d) true ::
          pollDevices base devMap S rest
      else
        PollEv.updHub k :: PollEv.updDev id :: PollEv.pub stTopic (stateJson d) true ::
          pollDevices base devMap (k :: S) rest

/-- One full poll cycle: line 172 initialises `hubs_aggiornati = set()`
afresh, so the cycle starts with the empty refreshed-set. -/
def pollCycle (base : String) (devMap : List (String × String))
    (devices : List (String × Device)) : List PollEv :=
  pollDevices base devMap [] devices

/-- `n` iterations of the poll `while True` loop over an unchanged
registry snapshot: each cycle rebuilds its refreshed-hub set. -/
def pollTrace (base : String) (devMap : List (String × String))
    (devices : List (String × Device)) : Nat → List PollEv
  | 0 => []
  | n + 1 => pollCycle base devMap devices ++ pollTrace base devMap devices n

/-! ## The command router (`handle_mqtt_messages`, line 204-258) -/

/-- An inbound MQTT message: the topic string and the result of
`json.loads(message.payload.decode(errors="replace"))` — `none` models a
`json.JSONDecodeError`, `some cmds` the decoded feature-name/value map. -/
structure MqttMessage where
  topic : String
  payload : Option (List (String × JsonVal))
deriving DecidableEq

/-- Observable actions of the router while handling one message. -/
inductive CmdAction where
  | logWarn
  | logJsonErr
  | setValue (device_name feature_name : String) (v : JsonVal)
  | sleep1
  | updHub (k : Nat)
  | pub (topic : String) (payload : List (String × JsonVal)) (retain : Bool)
deriving DecidableEq

/-- `topic.split('/')`: Python `str.split` on a single-character
separator, keeping empty segments. -/
def splitSlashChars : List Char → List (List Char)
  | [] => [[]]
  | c :: cs =>
    if c = '/' then [] :: splitSlashChars cs
    else
      match splitSlashChars cs with
      | [] => [[c]]
      | p :: ps => (c :: p) :: ps

/-- `topic.split('/')` on `String`. -/
def pySplitSlash (s : String) : List String :=
  (splitSlashChars s.data).map (fun l => ⟨l⟩)

/-- Lines 242-251: after a successful `set_value`, if the device has a
truthy `parent`, sleep one second, refresh the hub and republish the
device state retained. -/
def confirmActions (base device_name : String) (dev : Device) : List CmdAction :=
  match dev.parent with
  | some k =>
    [CmdAction.sleep1, CmdAction.updHub k,
     CmdAction.pub (base ++ "/" ++ device_name ++ "/state") (stateJson dev) true]
  | none => []

/-- Lines 236-253: one `(feature_name, new_value)` pair of the decoded
command map: settable features present on the device get a `set_value`
call (followed by the hub confirmation), everything else is logged. -/
def applyCommand (base device_name : String) (dev : Device)
    (cmd : String × JsonVal) : List CmdAction :=
  match dev.features.lookup cmd.1 with
  | some f =>
    if f.settable then
      CmdAction.setValue device_name cmd.1 cmd.2 :: confirmActions base device_name dev
    else [CmdAction.logWarn]
  | none => [CmdAction.logWarn]

/-- The body of the `async for message in client.messages` loop
(lines 211-258) on one message.  Every failure path of the original is a
`logWarn`/`logJsonErr` action followed by `continue`; the surrounding
`except` handlers make the body total, which the embedding reflects by
being a total function. -/
def handle_message (base : String) (devices : List (String × Device))
    (rev_map : List (String × String)) (msg : MqttMessage) : List CmdAction :=
  let parts := pySplitSlash msg.topic
  if parts.length < 3 then [CmdAction.logWarn]
  else
    let device_name := parts.getD 1 ""
    match rev_map.lookup device_name with
    | none => [CmdAction.logWarn]
    | some device_id =>
      match devices.lookup device_id with
      | none => [CmdAction.logWarn]
      | some dev =>
        match msg.payload with
        | none => [CmdAction.logJsonErr]
        | some commands => commands.flatMap (applyCommand base device_name dev)

/-- The router consuming a finite prefix of its message stream, one
message at a time, in arrival order. -/
def routerRun (base : String) (devices : List (String × Device))
    (rev_map : List (String × String)) (msgs : List MqttMessage) : List CmdAction :=
  msgs.flatMap (handle_message base devices rev_map)

/-! ## Reconnect backoff (`main`, lines 342-355) -/

/-- The assignment `backoff = min(backoff * 2, 60)` executed after each
sleep. -/
def backoffUpdate (b : Nat) : Nat := min (b * 2) 60

/-- The sleep duration used at the `n`-th consecutive failed session:
`backoff` starts at `3` (line 342) and is doubled with ceiling `60`
after every sleep; nothing in `main` ever assigns it back to `3`. -/
def backoffSeq : Nat → Nat
  | 0 => 3
  | n + 1 => backoffUpdate (backoffSeq n)

/-! ## Helper lemmas: strings and the sanitiser -/

lemma str_data_append (s t : String) : (s ++ t).data = s.data ++ t.data := rfl

lemma str_ext {s t : String} (h : s.data = t.data) : s = t := by
  cases s; cases t
  exact congrArg String.mk h

lemma mem_sanitize_allowed {a0 : String} {c : Char}
    (hc : c ∈ (sanitize_alias a0).data) : isAllowedChar c = true :=
  List.of_mem_filter hc

lemma space_not_allowed {c : Char} (h : isPySpace c = true) :
    isAllowedChar c = false := by
  simp only [isPySpace, Bool.or_eq_true, beq_iff_eq] at h
  rcases h with ((((h | h) | h) | h) | h) | h <;> subst h <;> decide

lemma allowed_not_space {c : Char} (h : isAllowedChar c = true) :
    isPySpace c = false := by
  cases hs : isPySpace c with
  | false => rfl
  | true => rw [space_not_allowed hs] at h; cases h

lemma lastN_length {s : String} (h : 8 ≤ s.data.length) :
    (lastN 8 s).data.length = 8 := by
  simp only [lastN, List.length_drop]
  omega

lemma unique_name_ne {a1 a2 id1 id2 : String} (h1 : 8 ≤ id1.data.length)
    (h2 : 8 ≤ id2.data.length) (hne : lastN 8 id1 ≠ lastN 8 id2) :
    unique_name a1 id1 ≠ unique_name a2 id2 := by
  intro heq
  apply hne
  have hd : ((sanitize_alias a1).data ++ "_".data) ++ (lastN 8 id1).data
      = ((sanitize_alias a2).data ++ "_".data) ++ (lastN 8 id2).data := by
    have h := congrArg String.data heq
    simpa only [unique_name, str_data_append] using h
  have hlen : (lastN 8 id1).data.length = (lastN 8 id2).data.length := by
    rw [lastN_length h1, lastN_length h2]
  exact str_ext (List.append_inj' hd hlen).2

/-! ## Helper lemmas: dictionary update -/

lemma lookup_cons_self {V : Type} {k : String} (v : V) (rest : List (String × V)) :
    List.lookup k ((k, v) :: rest) = some v := by
  simp [List.lookup]

lemma lookup_cons_of_ne {V : Type} {i k : String} (v : V)
    (rest : List (String × V)) (h : ¬ i = k) :
    List.lookup i ((k, v) :: rest) = List.lookup i rest := by
  simp [List.lookup, beq_false_of_ne h]

lemma lookup_dictSet {V : Type} (m : List (String × V)) (k : String) (v : V)
    (i : String) :
    (dictSet m k v).lookup i = if i = k then some v else m.lookup i := by
  induction m with
  | nil =>
    by_cases h : i = k
    · subst h; simp [dictSet, lookup_cons_self]
    · rw [show dictSet ([] : List (String × V)) k v = [(k, v)] from rfl,
        lookup_cons_of_ne _ _ h, if_neg h]
  | cons p rest ih =>
    obtain ⟨k', v'⟩ := p
    by_cases hk : k' = k
    · subst hk
      by_cases h : i = k'
      · subst h; simp [dictSet, lookup_cons_self]
      · simp [dictSet, lookup_cons_of_ne _ _ h, h]
    · by_cases h : i = k'
      · subst h
        simp [dictSet, hk, lookup_cons_self]
      · simp [dictSet, hk, lookup_cons_of_ne _ _ h, ih]

lemma dictSet_fresh {V : Type} {m : List (String × V)} {k : String} (v : V)
    (h : m.lookup k = none) : dictSet m k v = m ++ [(k, v)] := by
  induction m with
  | nil => simp [dictSet]
  | cons p rest ih =>
    obtain ⟨k', v'⟩ := p
    by_cases hk : k = k'
    · subst hk
      rw [lookup_cons_self] at h
      cases h
    · rw [lookup_cons_of_ne _ _ hk] at h
      have hk' : ¬ k' = k := fun hh => hk hh.symm
      simp [dictSet, hk', ih h]

lemma length_dictSet_fresh {V : Type} {m : List (String × V)} {k : String}
    (v : V) (h : m.lookup k = none) :
    (dictSet m k v).length = m.length + 1 := by
  rw [dictSet_fresh v h]; simp

lemma lookup_dictSet_isSome {V : Type} {m : List (String × V)} {i : String}
    (k : String) (v : V) (h : (m.lookup i).isSome) :
    ((dictSet m k v).lookup i).isSome := by
  rw [lookup_dictSet]
  by_cases hik : i = k <;> simp [hik, h]

/-! ## Demo devices used by concrete witnesses and counterexamples -/

/-- Standalone demo device, alias `x`, identity `a11111111`. -/
def demoDevA : Device := ⟨"a11111111", "x", none, []⟩

/-- Demo device whose identity differs from `demoDevA` but shares its
last eight characters, so both get topic name `x_11111111`. -/
def demoDevB : Device := ⟨"b11111111", "x", none, []⟩

/-- C2, counterexample to the claim as stated: the device identities
`a12345678` and `b12345678` are distinct, yet with the same alias both
produce the topic name `x_12345678`, because the code only appends the
last eight characters of the identity. -/
theorem topic_name_collision :
    unique_name "x" "a12345678" = unique_name "x" "b12345678" ∧
    ("a12345678" : String) ≠ "b12345678" := by
  exact ⟨rfl, by decide⟩

/-- C2, amended: for every alias, `sanitize_alias` produces only
characters of the class `[a-z0-9_-]` and no whitespace; and the full
topic name `sanitize_alias a ++ "_" ++ id[-8:]` is unique whenever the
identities have at least eight characters and differ in their last
eight characters (rather than whenever the identities are merely
distinct, which the counterexample refutes). -/
theorem sanitize_and_topic_name_ok :
    (∀ a0 : String, ∀ c ∈ (sanitize_alias a0).data,
       isAllowedChar c = true ∧ isPySpace c = false) ∧
    (∀ a1 a2 id1 id2 : String, 8 ≤ id1.data.length → 8 ≤ id2.data.length →
       lastN 8 id1 ≠ lastN 8 id2 → unique_name a1 id1 ≠ unique_name a2 id2) := by
  constructor
  · intro a0 c hc
    have h := mem_sanitize_allowed hc
    exact ⟨h, allowed_not_space h⟩
  · intro a1 a2 id1 id2 h1 h2 hne
    exact unique_name_ne h1 h2 hne

/-- C2, witness: the amended theorem applied at a concrete alias with
spaces and punctuation and at two concrete identities differing in
their last eight characters. -/
theorem sanitize_and_topic_name_ok_witness :
    (∀ c ∈ (sanitize_alias "My Lamp! 1").data,
       isAllowedChar c = true ∧ isPySpace c = false) ∧
    (8 ≤ ("a1234567x" : String).data.length ∧
     8 ≤ ("a1234567y" : String).data.length ∧
     lastN 8 "a1234567x" ≠ lastN 8 "a1234567y") ∧
    unique_name "kitchen" "a1234567x" ≠ unique_name "kitchen" "a1234567y" :=
  ⟨sanitize_and_topic_name_ok.1 "My Lamp! 1",
   ⟨by decide, by decide, by decide⟩,
   sanitize_and_topic_name_ok.2 "kitchen" "kitchen" "a1234567x" "a1234567y"
     (by decide) (by decide) (by decide)⟩

/-- C4, counterexample to the claim as stated: registration never fails.
Registering an identity already present returns the registry unchanged
(a silent no-op, hence idempotent — the claim says it is not), and
registering a fresh identity whose topic name is already present
silently overwrites the reverse-map entry instead of raising a
`ConflictError` (no such error exists anywhere in the code). -/
theorem register_no_conflict_error :
    registerStep (registerStep emptyRegState demoDevA) demoDevA
      = registerStep emptyRegState demoDevA ∧
    (registerStep emptyRegState demoDevA).reverse_device_map.lookup "x_11111111"
      = some "a11111111" ∧
    (registerStep (registerStep emptyRegState demoDevA) demoDevB).reverse_device_map.lookup
        "x_11111111" = some "b11111111" := by
  exact ⟨rfl, rfl, rfl⟩

/-- C4, amended: the registration step is total and raises nothing;
with the identity already in `kasa_devices` it silently leaves the
registry unchanged, and with a fresh identity it writes the identity
into `device_map` and its topic name into `reverse_device_map`,
overwriting any reverse-map entry already holding that topic name.
Only the identity is checked before inserting; the topic name is not. -/
theorem register_behaviour (st : RegState) (d : Device) :
    ((st.kasa_devices.lookup d.device_id).isSome → registerStep st d = st) ∧
    (st.kasa_devices.lookup d.device_id = none →
      (registerStep st d).device_map.lookup d.device_id
          = some (unique_name d.alias_ d.device_id) ∧
      (registerStep st d).reverse_device_map.lookup (unique_name d.alias_ d.device_id)
          = some d.device_id) := by
  constructor
  · intro h
    simp [registerStep, h]
  · intro h
    simp [registerStep, h, lookup_dictSet]

/-- C4, witness: the amended behaviour at concrete registries — the
second registration of `demoDevA` is a no-op, and a fresh registration
writes both maps. -/
theorem register_behaviour_witness :
    (((registerStep emptyRegState demoDevA).kasa_devices.lookup "a11111111").isSome ∧
      registerStep (registerStep emptyRegState demoDevA) demoDevA
        = registerStep emptyRegState demoDevA) ∧
    (emptyRegState.kasa_devices.lookup "b11111111" = none ∧
      (registerStep emptyRegState demoDevB).device_map.lookup "b11111111"
        = some (unique_name "x" "b11111111")) :=
  ⟨⟨by decide,
    (register_behaviour (registerStep emptyRegState demoDevA) demoDevA).1 (by decide)⟩,
   ⟨rfl, ((register_behaviour emptyRegState demoDevB).2 rfl).1⟩⟩

/-! ## C1: the registry inverse-map invariant -/

/-- The identity-to-name map and the name-to-identity map are mutually
inverse. -/
def MapsInverse (st : RegState) : Prop :=
  ∀ i nm, st.device_map.lookup i = some nm ↔
    st.reverse_device_map.lookup nm = some i

/-- No two devices of the pool with distinct identities produce the
same topic name. -/
def NamesInjective (S : List Device) : Prop :=
  ∀ d1, d1 ∈ S → ∀ d2, d2 ∈ S → d1.device_id ≠ d2.device_id →
    unique_name d1.alias_ d1.device_id ≠ unique_name d2.alias_ d2.device_id

/-- Inductive invariant carried through a registration sequence drawn
from the device pool `S`: equal cardinalities, mutual inversion,
`kasa_devices` and `device_map` agreeing on keys, and every map entry
originating from a device of the pool. -/
def RegistryOk (S : List Device) (st : RegState) : Prop :=
  st.device_map.length = st.reverse_device_map.length ∧
  MapsInverse st ∧
  (∀ i, (st.kasa_devices.lookup i).isSome ↔ (st.device_map.lookup i).isSome) ∧
  (∀ i nm, st.device_map.lookup i = some nm →
    ∃ d, d ∈ S ∧ d.device_id = i ∧ nm = unique_name d.alias_ d.device_id)

lemma registryOk_empty (S : List Device) : RegistryOk S emptyRegState := by
  refine ⟨rfl, ?_, ?_, ?_⟩
  · intro i nm
    simp [emptyRegState, List.lookup]
  · intro i
    simp [emptyRegState, List.lookup]
  · intro i nm hx
    simp [emptyRegState, List.lookup] at hx

lemma registryOk_step {S : List Device} {st : RegState} {d : Device}
    (hd : d ∈ S) (hinj : NamesInjective S) (h : RegistryOk S st) :
    RegistryOk S (registerStep st d) := by
  obtain ⟨hlen, hinv, hkd, hsrc⟩ := h
  by_cases hpres : (st.kasa_devices.lookup d.device_id).isSome
  · simp only [registerStep, hpres, if_true]
    exact ⟨hlen, hinv, hkd, hsrc⟩
  · have hdmn : st.device_map.lookup d.device_id = none := by
      cases hh : st.device_map.lookup d.device_id with
      | none => rfl
      | some nm =>
        exfalso
        exact hpres ((hkd d.device_id).mpr (by simp [hh]))
    have hrvn : st.reverse_device_map.lookup (unique_name d.alias_ d.device_id)
        = none := by
      cases hh : st.reverse_device_map.lookup (unique_name d.alias_ d.device_id) with
      | none => rfl
      | some i' =>
        exfalso
        have hdm' : st.device_map.lookup i'
            = some (unique_name d.alias_ d.device_id) := (hinv i' _).mpr hh
        obtain ⟨d', hd'S, hd'id, hd'nm⟩ := hsrc i' _ hdm'
        have hne : d.device_id ≠ d'.device_id := by
          intro he
          rw [hd'id] at he
          rw [← he, hdmn] at hdm'
          cases hdm'
        exact hinj d hd d' hd'S hne (hd'id ▸ hd'nm)
    have hstep : registerStep st d = RegState.mk
        (dictSet st.kasa_devices d.device_id d)
        (dictSet st.device_map d.device_id (unique_name d.alias_ d.device_id))
        (dictSet st.reverse_device_map (unique_name d.alias_ d.device_id) d.device_id) := by
      simp [registerStep, hpres]
    rw [hstep]
    refine ⟨?_, ?_, ?_, ?_⟩
    · rw [length_dictSet_fresh _ hdmn, length_dictSet_fresh _ hrvn, hlen]
    · intro i nm
      rw [lookup_dictSet, lookup_dictSet]
      by_cases h1 : i = d.device_id
      · subst h1
        by_cases h2 : nm = unique_name d.alias_ d.device_id
        · subst h2
          simp
        · rw [if_pos rfl, if_neg h2]
          constructor
          · intro hx
            exact absurd (Option.some.inj hx).symm h2
          · intro hx
            have hy := (hinv _ _).mpr hx
            rw [hdmn] at hy
            cases hy
      · by_cases h2 : nm = unique_name d.alias_ d.device_id
        · subst h2
          rw [if_neg h1, if_pos rfl]
          constructor
          · intro hx
            have hy := (hinv _ _).mp hx
            rw [hrvn] at hy
            cases hy
          · intro hx
            exact absurd (Option.some.inj hx).symm h1
        · rw [if_neg h1, if_neg h2]
          exact hinv i nm
    · intro i
      rw [lookup_dictSet, lookup_dictSet]
      by_cases h1 : i = d.device_id
      · simp [h1]
      · simp [h1, hkd i]
    · intro i nm hx
      rw [lookup_dictSet] at hx
      by_cases h1 : i = d.device_id
      · rw [if_pos h1] at hx
        exact ⟨d, hd, h1.symm, (Option.some.inj hx).symm⟩
      · rw [if_neg h1] at hx
        exact hsrc i nm hx

lemma registryOk_fold {S : List Device} (hinj : NamesInjective S) :
    ∀ ds : List Device, (∀ d ∈ ds, d ∈ S) → ∀ st : RegState, RegistryOk S st →
      RegistryOk S (ds.foldl registerStep st)
  | [], _, _, h => h
  | d :: ds, hsub, st, h => by
    rw [List.foldl_cons]
    exact registryOk_fold hinj ds (fun x hx => hsub x (List.mem_cons_of_mem _ hx)) _
      (registryOk_step (hsub d (List.mem_cons_self _ _)) hinj h)

/-- C1, counterexample to the claim as stated: registering two devices
with distinct identities `a11111111` and `b11111111` but the same alias
`x` (their identities share their last eight characters, so both get
topic name `x_11111111`) leaves `device_map` with two entries and
`reverse_device_map` with one — the cardinalities differ and the maps
are not mutually inverse after the second registration. -/
theorem registry_maps_inverse_cex :
    (applyRegistrations [demoDevA, demoDevB]).device_map.length = 2 ∧
    (applyRegistrations [demoDevA, demoDevB]).reverse_device_map.length = 1 :=
  ⟨rfl, rfl⟩

/-- C1, amended: for every sequence of registrations in which devices
with distinct identities always receive distinct topic names (which the
counterexample shows is not guaranteed by the naming scheme itself),
`device_map` and `reverse_device_map` have identical cardinality and
are mutually inverse.  Since the hypothesis restricts to every
sub-sequence, the invariant holds after every registration step of such
a sequence. -/
theorem registry_maps_inverse (ds : List Device) (hinj : NamesInjective ds) :
    (applyRegistrations ds).device_map.length
      = (applyRegistrations ds).reverse_device_map.length ∧
    MapsInverse (applyRegistrations ds) := by
  have h := registryOk_fold hinj ds (fun d hd => hd) emptyRegState
    (registryOk_empty ds)
  exact ⟨h.1, h.2.1⟩

/-- Demo registration sequence whose identities differ in their last
eight characters, so topic names stay distinct. -/
def demoRegList : List Device :=
  [⟨"a1234567x", "x", none, []⟩, ⟨"a1234567y", "x", none, []⟩]

/-- C1, witness: the amended invariant at a concrete two-device
sequence. -/
theorem registry_maps_inverse_witness :
    NamesInjective demoRegList ∧
    ((applyRegistrations demoRegList).device_map.length
        = (applyRegistrations demoRegList).reverse_device_map.length ∧
      MapsInverse (applyRegistrations demoRegList)) :=
  ⟨by unfold NamesInjective; decide,
   registry_maps_inverse demoRegList (by unfold NamesInjective; decide)⟩

/-! ## C9 and C10: persistence of the registry, hub classification -/

lemma registerStep_eq (st : RegState) (d : Device) :
    ((st.kasa_devices.lookup d.device_id).isSome ∧ registerStep st d = st) ∨
    (st.kasa_devices.lookup d.device_id = none ∧ registerStep st d = RegState.mk
      (dictSet st.kasa_devices d.device_id d)
      (dictSet st.device_map d.device_id (unique_name d.alias_ d.device_id))
      (dictSet st.reverse_device_map (unique_name d.alias_ d.device_id) d.device_id)) := by
  by_cases hp : (st.kasa_devices.lookup d.device_id).isSome
  · exact Or.inl ⟨hp, by simp [registerStep, hp]⟩
  · refine Or.inr ⟨?_, by simp [registerStep, hp]⟩
    cases hh : st.kasa_devices.lookup d.device_id
    · rfl
    · rw [hh] at hp; simp at hp

lemma registerStep_keeps (st : RegState) (d : Device) :
    (∀ i, (st.kasa_devices.lookup i).isSome →
      ((registerStep st d).kasa_devices.lookup i).isSome) ∧
    (∀ i, (st.device_map.lookup i).isSome →
      ((registerStep st d).device_map.lookup i).isSome) ∧
    (∀ nm, (st.reverse_device_map.lookup nm).isSome →
      ((registerStep st d).reverse_device_map.lookup nm).isSome) := by
  rcases registerStep_eq st d with ⟨_, h⟩ | ⟨_, h⟩ <;> rw [h]
  · exact ⟨fun _ hi => hi, fun _ hi => hi, fun _ hi => hi⟩
  · exact ⟨fun _ hi => lookup_dictSet_isSome _ _ hi,
      fun _ hi => lookup_dictSet_isSome _ _ hi,
      fun _ hi => lookup_dictSet_isSome _ _ hi⟩

lemma foldl_keeps_kasa (ds : List Device) :
    ∀ st : RegState, ∀ i, (st.kasa_devices.lookup i).isSome →
      (((ds.foldl registerStep st).kasa_devices.lookup i).isSome) := by
  induction ds with
  | nil => exact fun _ _ hi => hi
  | cons d ds ih =>
    intro st i hi
    rw [List.foldl_cons]
    exact ih _ i ((registerStep_keeps st d).1 i hi)

/-- C9, counterexample to the claim as stated: a device registered
during one session is present at the end of that session, yet absent
from the registry the next session starts with — `run_once` (line 288)
recreates the three dictionaries empty on every call, so entries do not
survive session teardown and reconnection. -/
theorem registry_persistence_cex :
    isRegistered (sessionEndRegistry [demoDevA]) "a11111111" = true ∧
    isRegistered (registryAtSessionStart [[demoDevA]]) "a11111111" = false :=
  ⟨rfl, rfl⟩

/-- C9, amended: no removal operation exists — within one session a
registered entry survives every further registration (registration is
the only operation that writes the registry; poll and command handling
only read it), in each of the three dictionaries, and through any whole
sequence of further registrations.  The registry is per-session, not
per-process: each reconnection starts again from the empty registry
built by `run_once`. -/
theorem registry_persistence (st : RegState) (d : Device) (i nm : String)
    (ds : List Device) :
    ((st.kasa_devices.lookup i).isSome →
      ((registerStep st d).kasa_devices.lookup i).isSome) ∧
    ((st.device_map.lookup i).isSome →
      ((registerStep st d).device_map.lookup i).isSome) ∧
    ((st.reverse_device_map.lookup nm).isSome →
      ((registerStep st d).reverse_device_map.lookup nm).isSome) ∧
    ((st.kasa_devices.lookup i).isSome →
      (((ds.foldl registerStep st).kasa_devices.lookup i).isSome)) :=
  ⟨(registerStep_keeps st d).1 i, (registerStep_keeps st d).2.1 i,
   (registerStep_keeps st d).2.2 nm, foldl_keeps_kasa ds st i⟩

/-- C9, witness: persistence at a concrete registry — `demoDevA`
remains registered after registering `demoDevB` and after a further
registration sequence. -/
theorem registry_persistence_witness :
    (((registerStep emptyRegState demoDevA).kasa_devices.lookup "a11111111").isSome) ∧
    (((registerStep (registerStep emptyRegState demoDevA) demoDevB).kasa_devices.lookup
        "a11111111").isSome) :=
  ⟨by decide,
   (registry_persistence (registerStep emptyRegState demoDevA) demoDevB "a11111111"
      "x_11111111" []).1 (by decide)⟩

lemma isRegistered_registerStep (st : RegState) (d : Device) (i : String) :
    isRegistered (registerStep st d) i ↔
      (isRegistered st i ∨ i = d.device_id) := by
  rcases registerStep_eq st d with ⟨hp, h⟩ | ⟨hn, h⟩ <;> rw [h]
  · constructor
    · exact Or.inl
    · rintro (hi | rfl)
      · exact hi
      · exact hp
  · unfold isRegistered
    rw [lookup_dictSet]
    by_cases hi : i = d.device_id
    · simp [hi]
    · simp [hi]

lemma isRegistered_foldl (ds : List Device) :
    ∀ st : RegState, ∀ i, isRegistered (ds.foldl registerStep st) i ↔
      (isRegistered st i ∨ i ∈ ds.map Device.device_id) := by
  induction ds with
  | nil => simp
  | cons d ds ih =>
    intro st i
    rw [List.foldl_cons, ih, isRegistered_registerStep]
    simp only [List.map_cons, List.mem_cons]
    tauto

/-- C10: during discovery an authenticated candidate is classified as a
hub exactly when its reported model string contains the substring
`KH100`; a hub has its children registered (each subject to the
identity-presence guard) and not the device itself, while any other
device is registered as a standalone device.  The theorem characterises
the registered identities after processing one candidate. -/
theorem hub_classification (st : RegState) (fd : FoundDevice) (i : String) :
    isRegistered (processFoundDevice st fd) i ↔
      (isRegistered st i ∨
        if pyStrContains "KH100" fd.model then i ∈ fd.children.map Device.device_id
        else i = fd.dev.device_id) := by
  unfold processFoundDevice is_hub
  by_cases hh : pyStrContains "KH100" fd.model
  · rw [if_pos hh, if_pos hh]
    exact isRegistered_foldl _ _ _
  · rw [if_neg hh, if_neg hh]
    exact isRegistered_registerStep _ _ _

/-! ## C3 and C5: poll ordering and the published state payload -/

lemma pollDevices_mem_updDev (base : String) (devMap : List (String × String)) :
    ∀ (devs : List (String × Device)) (S : List Nat) (i : String) (d : Device),
      (i, d) ∈ devs → PollEv.updDev i ∈ pollDevices base devMap S devs := by
  intro devs
  induction devs with
  | nil => intro S i d h; cases h
  | cons p rest ih =>
    intro S i d h
    obtain ⟨pid, pd⟩ := p
    rcases List.mem_cons.mp h with he | ht
    · injection he with h1 h2
      subst h1; subst h2
      cases hp : d.parent with
      | none => simp [pollDevices, hp]
      | some k => by_cases hk : k ∈ S <;> simp [pollDevices, hp, hk]
    · cases hp : pd.parent with
      | none =>
        simp only [pollDevices, hp]
        exact List.mem_cons_of_mem _ (List.mem_cons_of_mem _ (ih S i d ht))
      | some k =>
        by_cases hk : k ∈ S
        · simp only [pollDevices, hp, if_pos hk]
          exact List.mem_cons_of_mem _ (List.mem_cons_of_mem _ (ih S i d ht))
        · simp only [pollDevices, hp, if_neg hk]
          exact List.mem_cons_of_mem _ (List.mem_cons_of_mem _
            (List.mem_cons_of_mem _ (ih (k :: S) i d ht)))

lemma pollDevices_mem_pub (base : String) (devMap : List (String × String)) :
    ∀ (devs : List (String × Device)) (S : List Nat) (i : String) (d : Device),
      (i, d) ∈ devs →
      PollEv.pub (base ++ "/" ++ ((devMap.lookup i).getD (lastN 8 i)) ++ "/state")
        (stateJson d) true ∈ pollDevices base devMap S devs := by
  intro devs
  induction devs with
  | nil => intro S i d h; cases h
  | cons p rest ih =>
    intro S i d h
    obtain ⟨pid, pd⟩ := p
    rcases List.mem_cons.mp h with he | ht
    · injection he with h1 h2
      subst h1; subst h2
      cases hp : d.parent with
      | none => simp [pollDevices, hp]
      | some k => by_cases hk : k ∈ S <;> simp [pollDevices, hp, hk]
    · cases hp : pd.parent with
      | none =>
        simp only [pollDevices, hp]
        exact List.mem_cons_of_mem _ (List.mem_cons_of_mem _ (ih S i d ht))
      | some k =>
        by_cases hk : k ∈ S
        · simp only [pollDevices, hp, if_pos hk]
          exact List.mem_cons_of_mem _ (List.mem_cons_of_mem _ (ih S i d ht))
        · simp only [pollDevices, hp, if_neg hk]
          exact List.mem_cons_of_mem _ (List.mem_cons_of_mem _
            (List.mem_cons_of_mem _ (ih (k :: S) i d ht)))

lemma pollDevices_hub_before (base : String) (devMap : List (String × String)) :
    ∀ (devs : List (String × Device)) (S : List Nat) (i : String) (d : Device)
      (k : Nat), (i, d) ∈ devs → d.parent = some k → k ∉ S →
      [PollEv.updHub k, PollEv.updDev i].Sublist (pollDevices base devMap S devs) := by
  intro devs
  induction devs with
  | nil => intro S i d k h; cases h
  | cons p rest ih =>
    intro S i d k h hpar hkS
    obtain ⟨pid, pd⟩ := p
    rcases List.mem_cons.mp h with he | ht
    · injection he with h1 h2
      subst h1; subst h2
      simp only [pollDevices, hpar, if_neg hkS]
      exact List.Sublist.cons₂ _ (List.Sublist.cons₂ _ (List.nil_sublist _))
    · cases hp : pd.parent with
      | none =>
        simp only [pollDevices, hp]
        exact List.Sublist.cons _ (List.Sublist.cons _ (ih S i d k ht hpar hkS))
      | some k' =>
        by_cases hk' : k' ∈ S
        · simp only [pollDevices, hp, if_pos hk']
          exact List.Sublist.cons _ (List.Sublist.cons _ (ih S i d k ht hpar hkS))
        · simp only [pollDevices, hp, if_neg hk']
          by_cases hkk : k = k'
          · subst hkk
            have hm : PollEv.updDev i ∈ pollDevices base devMap (k :: S) rest :=
              pollDevices_mem_updDev base devMap rest (k :: S) i d ht
            exact List.Sublist.cons₂ _ (List.singleton_sublist.mpr
              (List.mem_cons_of_mem _ (List.mem_cons_of_mem _ hm)))
          · have hkS' : k ∉ k' :: S := by
              intro hx
              rcases List.mem_cons.mp hx with hx | hx
              · exact hkk hx
              · exact hkS hx
            exact List.Sublist.cons _ (List.Sublist.cons _ (List.Sublist.cons _
              (ih (k' :: S) i d k ht hpar hkS')))

lemma pollDevices_count_updHub (base : String) (devMap : List (String × String)) :
    ∀ (devs : List (String × Device)) (S : List Nat) (k : Nat),
      (pollDevices base devMap S devs).count (PollEv.updHub k)
        ≤ (if k ∈ S then 0 else 1) := by
  intro devs
  induction devs with
  | nil => intro S k; simp [pollDevices]
  | cons p rest ih =>
    intro S k
    obtain ⟨pid, pd⟩ := p
    cases hp : pd.parent with
    | none =>
      simp only [pollDevices, hp]
      rw [List.count_cons_of_ne (fun h => PollEv.noConfusion h),
        List.count_cons_of_ne (fun h => PollEv.noConfusion h)]
      exact ih S k
    | some k' =>
      by_cases hk' : k' ∈ S
      · simp only [pollDevices, hp, if_pos hk']
        rw [List.count_cons_of_ne (fun h => PollEv.noConfusion h),
          List.count_cons_of_ne (fun h => PollEv.noConfusion h)]
        exact ih S k
      · simp only [pollDevices, hp, if_neg hk']
        by_cases hkk : k = k'
        · subst hkk
          rw [List.count_cons_self,
            List.count_cons_of_ne (fun h => PollEv.noConfusion h),
            List.count_cons_of_ne (fun h => PollEv.noConfusion h)]
          have hrec := ih (k :: S) k
          rw [if_pos (List.mem_cons_self k S)] at hrec
          rw [if_neg hk']
          omega
        · rw [List.count_cons_of_ne (fun h => hkk (PollEv.updHub.inj h)),
            List.count_cons_of_ne (fun h => PollEv.noConfusion h),
            List.count_cons_of_ne (fun h => PollEv.noConfusion h)]
          have hrec := ih (k' :: S) k
          have hmem : (k ∈ k' :: S) ↔ (k ∈ S) := by
            constructor
            · intro hx
              rcases List.mem_cons.mp hx with hx | hx
              · exact absurd hx hkk
              · exact hx
            · exact fun hx => List.mem_cons_of_mem _ hx
          by_cases hkS : k ∈ S
          · rw [if_pos hkS]
            rw [if_pos (hmem.mpr hkS)] at hrec
            exact hrec
          · rw [if_neg hkS]
            rw [if_neg (fun hx => hkS (hmem.mp hx))] at hrec
            exact hrec

lemma pollTrace_count (base : String) (devMap : List (String × String))
    (devices : List (String × Device)) :
    ∀ (n : Nat) (k : Nat),
      (pollTrace base devMap devices n).count (PollEv.updHub k)
        = n * (pollCycle base devMap devices).count (PollEv.updHub k) := by
  intro n
  induction n with
  | zero => intro k; simp [pollTrace]
  | succ n ih =>
    intro k
    simp only [pollTrace, List.count_append, ih, Nat.succ_mul]
    omega

/-- C3: within one poll cycle, for every device whose handle has a live
parent reference, the parent's refresh is emitted before the device's
own refresh; each distinct parent object identity is refreshed at most
once per cycle; and over `n` consecutive cycles the per-cycle counts
simply add up, because the refreshed-hubs set is rebuilt empty at the
start of every cycle and discarded at its end. -/
theorem poll_hub_ordering (base : String) (devMap : List (String × String))
    (devices : List (String × Device)) :
    (∀ i d k, (i, d) ∈ devices → d.parent = some k →
      [PollEv.updHub k, PollEv.updDev i].Sublist (pollCycle base devMap devices)) ∧
    (∀ k, (pollCycle base devMap devices).count (PollEv.updHub k) ≤ 1) ∧
    (∀ n k, (pollTrace base devMap devices n).count (PollEv.updHub k)
      = n * (pollCycle base devMap devices).count (PollEv.updHub k)) := by
  refine ⟨?_, ?_, pollTrace_count base devMap devices⟩
  · intro i d k h hp
    exact pollDevices_hub_before base devMap devices [] i d k h hp (by simp)
  · intro k
    have h := pollDevices_count_updHub base devMap devices [] k
    simpa using h

/-- Three demo children sharing one hub (object identity key `7`). -/
def demoHubChild1 : Device := ⟨"c1111111", "th", some 7, []⟩

/-- Second demo child of the shared hub. -/
def demoHubChild2 : Device := ⟨"c2222222", "th", some 7, []⟩

/-- Third demo child of the shared hub. -/
def demoHubChild3 : Device := ⟨"c3333333", "th", some 7, []⟩

/-- Demo registry snapshot with three children of one hub. -/
def demoPollDevices : List (String × Device) :=
  [("c1111111", demoHubChild1), ("c2222222", demoHubChild2),
   ("c3333333", demoHubChild3)]

/-- C3, witness: with three children sharing hub `7`, the hub refresh
precedes the second child's refresh and the hub is refreshed at most
once in the cycle. -/
theorem poll_hub_ordering_witness :
    (("c2222222", demoHubChild2) ∈ demoPollDevices ∧
      demoHubChild2.parent = some 7) ∧
    [PollEv.updHub 7, PollEv.updDev "c2222222"].Sublist
      (pollCycle "kasa" [] demoPollDevices) ∧
    (∀ k, (pollCycle "kasa" [] demoPollDevices).count (PollEv.updHub k) ≤ 1) :=
  ⟨⟨by decide, rfl⟩,
   (poll_hub_ordering "kasa" [] demoPollDevices).1 "c2222222" demoHubChild2 7
     (by decide) rfl,
   (poll_hub_ordering "kasa" [] demoPollDevices).2.1⟩

lemma stateJson_eq_spec (d : Device) : stateJson d = specStatePayload d := by
  unfold stateJson specStatePayload
  apply List.filterMap_congr
  intro nf _
  obtain ⟨n, f⟩ := nf
  cases hv : f.value with
  | none => simp [get_feature_value, hv]
  | some r => cases r <;> simp [get_feature_value, hv, spec_lower]

/-- C5: for every device of the polled snapshot, the cycle publishes —
retained, under `base/<topic_name>/state` with the topic name taken
from `device_map` (falling back to the identity's last eight
characters) — exactly the state payload the specification describes:
the features whose extracted value is present, named/enumerated values
lowered to their lowercase name, all other values passed through
unchanged. -/
theorem poll_state_payload (base : String) (devMap : List (String × String))
    (devices : List (String × Device)) (i : String) (d : Device)
    (h : (i, d) ∈ devices) :
    stateJson d = specStatePayload d ∧
    PollEv.pub (base ++ "/" ++ ((devMap.lookup i).getD (lastN 8 i)) ++ "/state")
      (specStatePayload d) true ∈ pollCycle base devMap devices := by
  refine ⟨stateJson_eq_spec d, ?_⟩
  rw [← stateJson_eq_spec d]
  exact pollDevices_mem_pub base devMap devices [] i d h

/-- Demo device with one settable boolean feature, one enum-like
feature, one numeric feature and two valueless features. -/
def demoFeatDev : Device :=
  ⟨"d1234567", "x", some 9,
    [("state", ⟨some (RawValue.rBool true), true⟩),
     ("mode", ⟨some (RawValue.rNamed "Auto"), false⟩),
     ("battery", ⟨some (RawValue.rInt 95), false⟩),
     ("empty1", ⟨some RawValue.rNone, false⟩),
     ("empty2", ⟨none, false⟩)]⟩

/-- Demo one-device registry snapshot for the payload witness. -/
def demoPollDevices2 : List (String × Device) := [("d1234567", demoFeatDev)]

/-- Demo identity-to-name map for the payload witness. -/
def demoDevMap2 : List (String × String) := [("d1234567", "x_d1234567")]

/-- C5, witness: the payload theorem at a concrete device, plus a
concrete evaluation of the published payload showing the enum value
lowered, the absent values dropped, and the others passed through. -/
theorem poll_state_payload_witness :
    (("d1234567", demoFeatDev) ∈ demoPollDevices2) ∧
    (stateJson demoFeatDev = specStatePayload demoFeatDev ∧
      PollEv.pub ("kasa" ++ "/" ++ ((demoDevMap2.lookup "d1234567").getD
          (lastN 8 "d1234567")) ++ "/state") (specStatePayload demoFeatDev) true
        ∈ pollCycle "kasa" demoDevMap2 demoPollDevices2) ∧
    specStatePayload demoFeatDev =
      [("state", JsonVal.jBool true), ("mode", JsonVal.jStr "auto"),
       ("battery", JsonVal.jInt 95)] :=
  ⟨by decide,
   poll_state_payload "kasa" demoDevMap2 demoPollDevices2 "d1234567" demoFeatDev
     (by decide),
   by decide⟩

/-! ## C6 and C7: topic shape check and malformed payloads -/

/-- Demo device with one settable feature for router scenarios. -/
def demoRouterDev : Device :=
  ⟨"id111111", "lamp", none, [("on", ⟨some (RawValue.rBool false), true⟩)]⟩

/-- Demo in-memory device dict for router scenarios. -/
def demoRouterDevices : List (String × Device) := [("id111111", demoRouterDev)]

/-- Demo reverse map for router scenarios. -/
def demoRevMap : List (String × String) := [("lamp", "id111111")]

/-- C6, counterexample to the claim as stated: a message whose topic
has four segments and whose first segment differs from the configured
base topic is not discarded — the router only checks for at least three
segments and reads the second one, so the set operation is still
invoked. -/
theorem topic_shape_check_cex :
    (pySplitSlash "foo/lamp/bar/set").length ≠ 3 ∧
    ((pySplitSlash "foo/lamp/bar/set").getD 0 "") ≠ "kasa" ∧
    CmdAction.setValue "lamp" "on" (JsonVal.jBool true) ∈
      handle_message "kasa" demoRouterDevices demoRevMap
        ⟨"foo/lamp/bar/set", some [("on", JsonVal.jBool true)]⟩ :=
  ⟨by decide, by decide, by decide⟩

/-- C6, amended: the router discards a message without invoking any set
operation when its topic has fewer than three `/`-separated segments;
it performs no other shape validation — the first segment is never
compared with the base topic, the final segment is never compared with
`set`, and more than three segments are accepted (conformance of
delivered topics is left to the broker-side subscription filter
`base/+/set`). -/
theorem topic_shape_check (base : String) (devices : List (String × Device))
    (rev_map : List (String × String)) (msg : MqttMessage)
    (h : (pySplitSlash msg.topic).length < 3) :
    handle_message base devices rev_map msg = [CmdAction.logWarn] ∧
    ∀ dn fn v, CmdAction.setValue dn fn v ∉ handle_message base devices rev_map msg := by
  have he : handle_message base devices rev_map msg = [CmdAction.logWarn] := by
    simp [handle_message, h]
  refine ⟨he, ?_⟩
  intro dn fn v
  rw [he]
  simp

/-- C6, witness: a two-segment-less topic is logged and discarded. -/
theorem topic_shape_check_witness :
    (pySplitSlash "ab").length < 3 ∧
    (handle_message "kasa" [] [] ⟨"ab", none⟩ = [CmdAction.logWarn] ∧
      ∀ dn fn v, CmdAction.setValue dn fn v ∉
        handle_message "kasa" [] [] ⟨"ab", none⟩) :=
  ⟨by decide, topic_shape_check "kasa" [] [] ⟨"ab", none⟩ (by decide)⟩

/-- C7: a message on a valid, registered device topic whose payload is
not valid JSON is logged and discarded — the handler emits only the
JSON-error log action, in particular no set operation — and the router,
which is a total function over its message stream, goes on to process
the subsequent messages unchanged. -/
theorem malformed_payload_safe (base : String) (devices : List (String × Device))
    (rev_map : List (String × String)) (msg : MqttMessage) (did : String)
    (dev : Device) (rest : List MqttMessage)
    (h1 : ¬ (pySplitSlash msg.topic).length < 3)
    (h2 : rev_map.lookup ((pySplitSlash msg.topic).getD 1 "") = some did)
    (h3 : devices.lookup did = some dev)
    (h4 : msg.payload = none) :
    handle_message base devices rev_map msg = [CmdAction.logJsonErr] ∧
    routerRun base devices rev_map (msg :: rest)
      = CmdAction.logJsonErr :: routerRun base devices rev_map rest := by
  have h2' : List.lookup ((pySplitSlash msg.topic)[1]?.getD "") rev_map
      = some did := by simpa using h2
  have he : handle_message base devices rev_map msg = [CmdAction.logJsonErr] := by
    simp [handle_message, h1, h2', h3, h4]
  refine ⟨he, ?_⟩
  simp [routerRun, he]

/-- C7, witness: the malformed-payload scenario of the specification —
a registered topic `kasa/lamp/set` with an undecodable payload followed
by a well-formed message, the latter processed unchanged. -/
theorem malformed_payload_safe_witness :
    (¬ (pySplitSlash "kasa/lamp/set").length < 3 ∧
      demoRevMap.lookup ((pySplitSlash "kasa/lamp/set").getD 1 "") = some "id111111" ∧
      demoRouterDevices.lookup "id111111" = some demoRouterDev) ∧
    (handle_message "kasa" demoRouterDevices demoRevMap ⟨"kasa/lamp/set", none⟩
        = [CmdAction.logJsonErr] ∧
      routerRun "kasa" demoRouterDevices demoRevMap
          (⟨"kasa/lamp/set", none⟩ ::
            [⟨"kasa/lamp/set", some [("on", JsonVal.jBool true)]⟩])
        = CmdAction.logJsonErr :: routerRun "kasa" demoRouterDevices demoRevMap
            [⟨"kasa/lamp/set", some [("on", JsonVal.jBool true)]⟩]) :=
  ⟨⟨by decide, by decide, by decide⟩,
   malformed_payload_safe "kasa" demoRouterDevices demoRevMap
     ⟨"kasa/lamp/set", none⟩ "id111111" demoRouterDev
     [⟨"kasa/lamp/set", some [("on", JsonVal.jBool true)]⟩]
     (by decide) (by decide) (by decide) rfl⟩

/-! ## C8: the reconnect backoff sequence -/

lemma backoffSeq_closed : ∀ n, backoffSeq n = min (3 * 2 ^ n) 60 := by
  intro n
  induction n with
  | zero => rfl
  | succ n ih =>
    rw [show backoffSeq (n + 1) = backoffUpdate (backoffSeq n) from rfl, ih,
      backoffUpdate, pow_succ]
    omega

/-- C8: the sleep durations of consecutive failed sessions are exactly
`min (3 * 2 ^ n) 60`, i.e. `3, 6, 12, 24, 48, 60, 60, ...` — starting
at 3, doubling after each failure and capped at 60 — and the backoff
value never decreases, since the only assignment to it in `main` is
`backoff = min(backoff * 2, 60)`; it is never reset during the process
lifetime. -/
theorem backoff_sequence :
    (∀ n, backoffSeq n = min (3 * 2 ^ n) 60) ∧
    (List.range 7).map backoffSeq = [3, 6, 12, 24, 48, 60, 60] ∧
    (∀ n, backoffSeq n ≤ backoffSeq (n + 1)) := by
  refine ⟨backoffSeq_closed, by decide, ?_⟩
  intro n
  rw [backoffSeq_closed, backoffSeq_closed]
  have h2 : (2 : Nat) ^ n ≤ 2 ^ (n + 1) :=
    Nat.pow_le_pow_right (by omega) (Nat.le_succ n)
  omega
